import Mathlib

/-!
# Verification of the SAN-boot block-device stack core

Shallow embedding of three subsystems of the iPXE-derived SAN-boot stack:

* the SCSI session layer (`src/drivers/block/scsi.c`),
* the SRP transport (`src/drivers/block/srp.c`),
* the INT 13 disk-interrupt emulator
  (`src/arch/i386/interface/pcbios/int13.c`).

C machine integers are modelled as `Nat` with explicit `% 2^w` where
overflow matters; C `int` status codes are modelled as `Int` (negative
errno values).  Fallible operations return explicit outcome types.
-/

/-! ## Error codes

Negated errno values, as used throughout the C source (`-EIO`, `-ENOENT`,
...).  The numeric values follow the conventional errno numbering; only
their distinctness and sign matter to the claims. -/

def errEio : Int := 5
def errEnoent : Int := 2
def errEinval : Int := 22
def errEperm : Int := 1
def errEnotsup : Int := 95
def errEaddrinuse : Int := 98

/-! ## SCSI layer (`src/drivers/block/scsi.c`) -/

/-- Model of `SCSICMD_MAX_RETRIES` from scsi.c: maximum number of command retries. -/
def SCSICMD_MAX_RETRIES : Nat := 10

/-- Modelled from the spec: the constant `SCSI_MAX_BLOCK_10` comes from the
header `include/ipxe/scsi.h`, which is not part of the source tree given;
spec sections 4.3 ("pick the 16-byte form iff `lba + count > 2^32 - 1`")
and 8 ("the opcode chosen is 10-byte iff `lba + count <= 2^32 - 1`") fix
its value as the largest 32-bit block number, `0xffffffff`. -/
def SCSI_MAX_BLOCK_10 : Nat := 2 ^ 32 - 1

/-- A SCSI command descriptor block, restricted to the variants the SCSI
session layer constructs.  Multi-byte fields are stored as the numeric
values placed in the wire fields (big-endian encoding itself is not
modelled); the field widths of the C structs are applied as moduli. -/
inductive Cdb : Type
  /-- READ (10): 32-bit LBA, 16-bit transfer length. -/
  | read10 (lba : Nat) (len : Nat)
  /-- READ (16): 64-bit LBA, 32-bit transfer length. -/
  | read16 (lba : Nat) (len : Nat)
  /-- WRITE (10): 32-bit LBA, 16-bit transfer length. -/
  | write10 (lba : Nat) (len : Nat)
  /-- WRITE (16): 64-bit LBA, 32-bit transfer length. -/
  | write16 (lba : Nat) (len : Nat)
  /-- READ CAPACITY (10). -/
  | readcap10
  /-- READ CAPACITY (16), encoded as SERVICE ACTION IN. -/
  | readcap16
  deriving DecidableEq, Repr

/-- Whether a CDB is one of the 10-byte READ/WRITE forms. -/
def Cdb.isForm10 : Cdb → Bool
  | .read10 _ _ => true
  | .write10 _ _ => true
  | _ => false

/-- Model of `scsicmd_read_cmd` (scsi.c): choose READ (16) when
`scsicmd->lba + scsicmd->count > SCSI_MAX_BLOCK_10`, else READ (10).
`scsicmd->lba` is `uint64_t` and `scsicmd->count` is `unsigned int`, so
the C sum is computed in 64-bit arithmetic and wraps mod `2^64`.  The
10-byte form stores the LBA in a 32-bit field and the count in a 16-bit
field; the 16-byte form stores them in 64-bit and 32-bit fields. -/
def scsicmd_read_cmd (lba count : Nat) : Cdb :=
  if (lba % 2 ^ 64 + count % 2 ^ 32) % 2 ^ 64 > SCSI_MAX_BLOCK_10 then
    .read16 (lba % 2 ^ 64) (count % 2 ^ 32)
  else
    .read10 (lba % 2 ^ 32) (count % 2 ^ 16)

/-- Model of `scsicmd_write_cmd` (scsi.c): same form selection as
`scsicmd_read_cmd` (the 64-bit sum wrapping mod `2^64`), with the WRITE
opcodes. -/
def scsicmd_write_cmd (lba count : Nat) : Cdb :=
  if (lba % 2 ^ 64 + count % 2 ^ 32) % 2 ^ 64 > SCSI_MAX_BLOCK_10 then
    .write16 (lba % 2 ^ 64) (count % 2 ^ 32)
  else
    .write10 (lba % 2 ^ 32) (count % 2 ^ 16)

/-- Model of `scsicmd_read_capacity_cmd` (scsi.c): the CDB built depends only on
the per-command `use16` flag of `struct scsi_read_capacity_private`. -/
def scsicmd_read_capacity_cmd (use16 : Bool) : Cdb :=
  if use16 then .readcap16 else .readcap10

/-- The initial value of the `use16` flag: `scsidev_command` allocates the
command (private data included) with `zalloc`, so the flag starts 0. -/
def scsicmd_initial_use16 : Bool := false

/-- Outcome of `scsicmd_done` (scsi.c): either the command was
successfully re-issued (with its updated retry counter), or it was handed
to the command type's completion handler with the given status. -/
inductive DoneAction : Type
  | reissued (retries : Nat)
  | completed (rc : Int)
  deriving DecidableEq, Repr

/-- Model of `scsicmd_done` (scsi.c).  `retries` is the command's retry counter
before this completion; `rc` the completion status; `reissue_rc` the
result `scsicmd_command` would return if re-issuing is attempted.
The C code's post-increment `scsicmd->retries++ < SCSICMD_MAX_RETRIES`
compares the old counter and bumps it (the bump is unobservable when the
command completes, so it is recorded only on the reissue path). -/
def scsicmd_done (retries : Nat) (rc : Int) (reissue_rc : Int) : DoneAction :=
  if rc ≠ 0 ∧ retries < SCSICMD_MAX_RETRIES then
    if reissue_rc = 0 then .reissued (retries + 1) else .completed reissue_rc
  else
    .completed rc

/-- Model of `scsicmd_response` (scsi.c): a zero SCSI status byte completes the
command with 0; any non-zero status byte completes it with `-errEio`. -/
def scsicmd_response (retries : Nat) (status : Nat) (reissue_rc : Int) :
    DoneAction :=
  if status = 0 then
    scsicmd_done retries 0 reissue_rc
  else
    scsicmd_done retries (-errEio) reissue_rc

/-- One completion of an in-flight command with a non-zero SCSI status
byte, with re-issuing always succeeding; an already-completed command is
left as is. -/
def scsicmd_fail_step (a : DoneAction) : DoneAction :=
  match a with
  | .reissued r => scsicmd_response r 1 0
  | .completed rc => .completed rc

/-- State of a command after `n` consecutive non-zero-status completions,
starting from the initial issue (retry counter 0). -/
def scsicmd_fail_run : Nat → DoneAction
  | 0 => .reissued 0
  | n + 1 => scsicmd_fail_step (scsicmd_fail_run n)

/-- Wire contents of a READ CAPACITY (10) parameter block
(`struct scsi_capacity_10`): 32-bit LBA of the last block, 32-bit block
size. -/
structure CapacityWire10 : Type where
  lba : Nat
  blksize : Nat
  deriving DecidableEq, Repr

/-- Wire contents of a READ CAPACITY (16) parameter block
(`struct scsi_capacity_16`): 64-bit LBA of the last block, 32-bit block
size. -/
structure CapacityWire16 : Type where
  lba : Nat
  blksize : Nat
  deriving DecidableEq, Repr

/-- Model of `struct block_device_capacity` as filled in by
`scsicmd_read_capacity_done`: total number of blocks (64-bit), block size
(32-bit), maximum number of blocks per single command (32-bit). -/
structure BlockCapacity : Type where
  blocks : Nat
  blksize : Nat
  max_count : Nat
  deriving DecidableEq, Repr

/-- Outcome of `scsicmd_read_capacity_done` (scsi.c). -/
inductive ReadCapOutcome : Type
  /-- The command was closed with the given status without reporting a
  capacity. -/
  | closed (rc : Int)
  /-- The command was re-issued (READ CAPACITY (16) fallback); the fields
  record the `use16` flag and retry counter after the re-issue. -/
  | reissued (use16 : Bool) (retries : Nat)
  /-- The capacity was delivered via `block_capacity` and the command
  closed with status 0. -/
  | delivered (cap : BlockCapacity)
  deriving DecidableEq, Repr

/-- Model of `scsicmd_read_capacity_done` (scsi.c).  `use16` and `retries` are the
command's state at completion; `rc` is the completion status; `wire10` /
`wire16` are the parameter data the target returned (whichever matches
the form issued is read); `reissue_rc` is the result `scsicmd_command`
would return for the fallback re-issue.

In the 10-byte case the C code computes `blocks` as
`be32_to_cpu(capacity10->lba) + 1` in 32-bit arithmetic, so a returned
LBA of `0xffffffff` wraps to zero, which triggers the fallback: set
`use16` and re-issue the same command (the retry counter is untouched).
`max_count` is set to `-1U`, i.e. `2^32 - 1`. -/
def scsicmd_read_capacity_done (use16 : Bool) (retries : Nat) (rc : Int)
    (wire10 : CapacityWire10) (wire16 : CapacityWire16)
    (reissue_rc : Int) : ReadCapOutcome :=
  if rc ≠ 0 then
    .closed rc
  else if use16 then
    .delivered ⟨(wire16.lba % 2 ^ 64 + 1) % 2 ^ 64, wire16.blksize % 2 ^ 32,
      2 ^ 32 - 1⟩
  else
    let blocks := (wire10.lba % 2 ^ 32 + 1) % 2 ^ 32
    if blocks = 0 then
      if reissue_rc = 0 then .reissued true retries else .closed reissue_rc
    else
      .delivered ⟨blocks, wire10.blksize % 2 ^ 32, 2 ^ 32 - 1⟩

/-! ## SRP transport (`src/drivers/block/srp.c`)

An SRP session's observable state is reduced to what the claims need:
whether its interfaces are still up, the `logged_in` flag, and the list
of outstanding command tags. -/

/-- Model of `srp_find_tag` (srp.c): walk the outstanding-command list and return
the first command whose tag matches, if any.  Commands are represented by
their 32-bit tags. -/
def srp_find_tag (cmds : List Nat) (tag : Nat) : Option Nat :=
  cmds.find? (fun c => c == tag)

/-- Result of `srp_new_tag` (srp.c): a fresh tag, or `-EADDRINUSE`. -/
inductive TagResult : Type
  | ok (tag : Nat)
  | addrInUse
  deriving DecidableEq, Repr

/-- The probe loop of `srp_new_tag` (srp.c): starting from the 16-bit
counter `idx`, increment (mod `2^16`) and probe up to `fuel` times,
returning the first probed value not present in the outstanding list. -/
def srp_new_tag_loop (cmds : List Nat) : Nat → Nat → Option Nat
  | _, 0 => none
  | idx, fuel + 1 =>
    let t := (idx + 1) % 65536
    if srp_find_tag cmds t = none then some t
    else srp_new_tag_loop cmds t fuel

/-- Model of `srp_new_tag` (srp.c): run the probe loop for a full 16-bit cycle
(65536 probes); fail with `EADDRINUSE` only if every probe collides.
Returns the result together with the value of the counter afterwards.
Note that in the C source the counter `tag_idx` is a function-level
`static`: one process-global counter shared by every SRP session. -/
def srp_new_tag (cmds : List Nat) (tag_idx : Nat) : TagResult × Nat :=
  match srp_new_tag_loop cmds tag_idx 65536 with
  | some t => (.ok t, t)
  | none => (.addrInUse, tag_idx % 65536)

/-- The first tag allocated for a second session B after session A (both
with empty outstanding lists) has performed one allocation, as the code
behaves: `tag_idx` is shared, so B's probe starts from the counter value
A left behind. -/
def srp_secondSession_firstTag_code : TagResult :=
  (srp_new_tag [] (srp_new_tag [] 0).2).1

/-- Modelled from the spec: spec sections 3 and 4.2 place the tag counter
inside the per-target session record ("a session-scoped 16-bit counter"),
so a fresh session B allocates starting from its own zero-initialised
counter, independently of session A's allocations. -/
def srp_secondSession_firstTag_spec : TagResult :=
  (srp_new_tag [] 0).1

/-- Observable state of an SRP session (`struct srp_device`). `alive` is
false once `srpdev_close` has shut the session's interfaces down. -/
structure SrpDevice : Type where
  alive : Bool
  logged_in : Bool
  commands : List Nat
  deriving DecidableEq, Repr

/-- Model of `srpdev_close` (srp.c): shut down the session's interfaces and close
every outstanding command (each removes itself from the list).  The
`logged_in` field itself is not written. -/
def srpdev_close (s : SrpDevice) : SrpDevice :=
  { alive := false, logged_in := s.logged_in, commands := [] }

/-- Model of `srp_rsp` (srp.c), reduced to its effect on the session state and its
return code: look the tag up in the outstanding list; if absent, return
`-ENOENT` with the state unchanged; otherwise deliver the response and
close that one command (removing it from the list), returning 0. -/
def srp_rsp_step (s : SrpDevice) (tag : Nat) : SrpDevice × Int :=
  match srp_find_tag s.commands tag with
  | none => (s, -errEnoent)
  | some _ => ({ s with commands := s.commands.erase tag }, 0)

/-- An incoming IU as classified by `srpdev_deliver` (srp.c): the
dispatch is on the first-byte type code, after a minimum-length check. -/
inductive SrpIu : Type
  /-- IU shorter than `struct srp_common`. -/
  | tooShort
  /-- Model of `SRP_LOGIN_RSP` (assumed long enough). -/
  | loginRsp
  /-- Model of `SRP_LOGIN_REJ` (assumed long enough). -/
  | loginRej
  /-- Model of `SRP_RSP` carrying the given tag (assumed long enough). -/
  | rsp (tag : Nat)
  /-- Any other type code. -/
  | other
  deriving DecidableEq, Repr

/-- Model of `srpdev_deliver` (srp.c): dispatch the IU to its handler
(`srp_login_rsp` / `srp_login_rej` / `srp_rsp` / `srp_unrecognised`); if
the handler returns a non-zero status, close the whole session with that
status.  Returns the new session state and the delivery status. -/
def srpdev_deliver (s : SrpDevice) (iu : SrpIu) : SrpDevice × Int :=
  match iu with
  | .tooShort => (srpdev_close s, -errEinval)
  | .loginRsp => ({ s with logged_in := true }, 0)
  | .loginRej => (srpdev_close s, -errEperm)
  | .rsp tag =>
    let sr := srp_rsp_step s tag
    if sr.2 ≠ 0 then (srpdev_close sr.1, sr.2) else sr
  | .other => (srpdev_close s, -errEnotsup)

/-! ## INT 13 emulator (`src/arch/i386/interface/pcbios/int13.c`) -/

/-- Firmware status codes from `int13.h` (standard BIOS INT 13 status
byte values): invalid parameter, read error, reset failed. -/
def INT13_STATUS_INVALID : Int := 1

/-- BIOS INT 13 status: read (or write) error. -/
def INT13_STATUS_READ_ERROR : Int := 4

/-- Model of `INT13_BLKSIZE`: the block size mandated for classic CHS I/O. -/
def INT13_BLKSIZE : Nat := 512

/-- Result of the fragmentation loop `int13_rw`: success, the status of
the first failing fragment, or non-termination of the `while` loop (which
can only happen when `capacity.max_count = 0`). -/
inductive RwResult : Type
  | ok
  | err (rc : Int)
  | hang
  deriving DecidableEq, Repr

/-- The `while ( count )` loop of `int13_rw` (int13.c).  `issue lba frag`
abstracts one full command issuance for the fragment
`[lba, lba + frag)` — `int13_command_start`, the `block_rw` call and
`int13_command_wait`, whose statuses the C code short-circuits into a
single `rc`.  Returns the list of issued fragments `(lba, frag)` in
order, and the loop's result.  `fuel` bounds the number of iterations;
each iteration removes `frag = min count max_count ≥ 1` blocks whenever
`max_count ≥ 1`, so `fuel = count` suffices and `hang` is reachable only
when `max_count = 0`. -/
def int13_rw_loop (max_count : Nat) (issue : Nat → Nat → Int) :
    Nat → Nat → Nat → List (Nat × Nat) × RwResult
  | 0, _, count => ([], if count = 0 then .ok else .hang)
  | fuel + 1, lba, count =>
    if count = 0 then ([], .ok)
    else
      let frag := min count max_count
      let rc := issue lba frag
      if rc = 0 then
        let rest := int13_rw_loop max_count issue fuel (lba + frag) (count - frag)
        ((lba, frag) :: rest.1, rest.2)
      else ([(lba, frag)], .err rc)

/-- Model of `int13_rw` (int13.c): fragment the request `[lba, lba + count)` into
pieces of at most `capacity.max_count` blocks and issue them in order,
stopping at the first failure. -/
def int13_rw (max_count : Nat) (issue : Nat → Nat → Int)
    (lba count : Nat) : List (Nat × Nat) × RwResult :=
  int13_rw_loop max_count issue count lba count

/-- The fragment schedule of `int13_rw`: the `(lba, frag)` pairs the loop
would issue, independent of any command outcome. -/
def int13_frags (max_count : Nat) : Nat → Nat → Nat → List (Nat × Nat)
  | 0, _, _ => []
  | fuel + 1, lba, count =>
    if count = 0 then []
    else
      let frag := min count max_count
      (lba, frag) :: int13_frags max_count fuel (lba + frag) (count - frag)

/-- CHS geometry of an emulated drive (`struct int13_drive` fields
`cylinders`, `heads`, `sectors_per_track`). -/
structure Int13Geometry : Type where
  cylinders : Nat
  heads : Nat
  sectors_per_track : Nat
  deriving DecidableEq, Repr

/-- Outcome of `int13_rw_sectors` (int13.c): either a status was returned
without touching the block device, or block I/O was issued for the given
LBA range and the call returned the given status. -/
inductive RwSectorsOutcome : Type
  | status (st : Int)
  | issued (lba : Nat) (count : Nat) (st : Int)
  deriving DecidableEq, Repr

/-- Model of `int13_rw_sectors` (int13.c).  Register inputs: `al` = sector count,
`ch` = low cylinder bits, `cl` = high cylinder bits (7:6) and sector
(5:0), `dh` = head.  A non-`INT13_BLKSIZE` block size fails with
`INT13_STATUS_INVALID`.  The decoded cylinder/head/sector are checked
only by debug `assert` macros, which never alter control flow (iPXE's
`assert` prints in debug builds and compiles to nothing otherwise), so
the translated LBA is passed to `int13_rw` unconditionally; `rw lba
count` abstracts that call.  A non-zero I/O status is mapped to
`INT13_STATUS_READ_ERROR`. -/
def int13_rw_sectors (geom : Int13Geometry) (blksize : Nat)
    (al ch cl dh : Nat) (rw : Nat → Nat → Int) : RwSectorsOutcome :=
  if blksize ≠ INT13_BLKSIZE then .status (-INT13_STATUS_INVALID)
  else
    let cylinder := ((cl &&& 0xc0) <<< 2) ||| ch
    let head := dh
    let sector := cl &&& 0x3f
    let lba := ((cylinder * geom.heads + head) * geom.sectors_per_track) +
      sector - 1
    let count := al
    if rw lba count = 0 then .issued lba count 0
    else .issued lba count (-INT13_STATUS_READ_ERROR)

/-- Model of `ULONG_MAX` on the i386 build: `unsigned long` is 32 bits. -/
def ULONG_MAX : Nat := 2 ^ 32 - 1

/-- One MBR partition table entry, reduced to the fields
`int13_guess_geometry` reads: the type code (0 = unused) and the decoded
CHS-end head and sector (`PART_HEAD` / `PART_SECTOR` of `chs_end`). -/
structure PartitionEntry : Type where
  ptype : Nat
  chs_end_head : Nat
  chs_end_sector : Nat
  deriving DecidableEq, Repr

/-- The partition-table scan of `int13_guess_geometry` (int13.c):
starting from the default guesses `heads = 255`,
`sectors_per_track = 63`, every entry with a non-zero type code
overwrites both guesses with `PART_HEAD(chs_end) + 1` and
`PART_SECTOR(chs_end)` — so the last used entry wins. -/
def int13_guess_scan (parts : List PartitionEntry) : Nat × Nat :=
  parts.foldl
    (fun g p =>
      if p.ptype ≠ 0 then (p.chs_end_head + 1, p.chs_end_sector) else g)
    (255, 63)

/-- Model of `int13_guess_geometry` (int13.c).  `blocks` and `blksize` are the
drive's cached capacity; `geom` its current geometry; `read_mbr` the
result of reading logical block 0 (the four partition entries, or the
error `int13_rw` returned).  When the block size is not the legacy 512
the function returns success immediately, without reading the MBR.
Otherwise a failed MBR read is returned as is; on success each geometry
field that is still zero is filled in: heads and sectors-per-track from
the scan, and cylinders as `blocks / (heads * sectors_per_track)` —
computed after clamping `blocks` to `ULONG_MAX` — capped at 1024. -/
def int13_guess_geometry (blocks blksize : Nat) (geom : Int13Geometry)
    (read_mbr : Except Int (List PartitionEntry)) :
    Except Int Int13Geometry :=
  if blksize ≠ INT13_BLKSIZE then .ok geom
  else
    match read_mbr with
    | .error rc => .error rc
    | .ok parts =>
      let guessed := int13_guess_scan parts
      let heads := if geom.heads = 0 then guessed.1 else geom.heads
      let spt :=
        if geom.sectors_per_track = 0 then guessed.2
        else geom.sectors_per_track
      let cylinders :=
        if geom.cylinders = 0 then
          let b := if blocks ≤ ULONG_MAX then blocks else ULONG_MAX
          let c := b / (heads * spt)
          if c > 1024 then 1024 else c
        else geom.cylinders
      .ok ⟨cylinders, heads, spt⟩

/-- A dispatched INT 13 call, as seen by the `switch ( command )` in the
`int13` handler (int13.c).  `getLastStatus` is function 0x01; `op s`
stands for any other function code whose per-function handler returns the
status `s` (the handlers themselves are modelled elsewhere; the dispatch
frame treats them uniformly through their returned status). -/
inductive Int13Call : Type
  | getLastStatus
  | op (handler_status : Int)
  deriving DecidableEq, Repr

/-- Register-level outputs of one dispatched INT 13 call: the AH status
byte, the carry flag (the wrapper sets CF before the handler runs, and
the handler clears it only on success), and the overflow flag (always set
for a matched drive, telling the trampoline not to chain). -/
structure Int13Dispatched : Type where
  ah : Nat
  cf : Bool
  of_flag : Bool
  deriving DecidableEq, Repr

/-- The per-drive tail of the `int13` handler (int13.c): run the selected
function, store its status into `last_status` unconditionally, negate a
negative status into the AH status byte (clearing CF only when the status
is non-negative), and set OF.  The drive state is reduced to the
`last_status` field; the call returns the new `last_status` and the
register outputs. -/
def int13_dispatch (last_status : Int) (call : Int13Call) :
    Int × Int13Dispatched :=
  let status :=
    match call with
    | .getLastStatus => last_status
    | .op s => s
  if status < 0 then
    (status, ⟨((-status) % 256).toNat, true, true⟩)
  else
    (status, ⟨(status % 256).toNat, false, true⟩)

/-- Model of `int13_get_parameters` (int13.c), INT 13 function 0x08.  Inputs: the
drive geometry and the BIOS data area drive-count byte (read by
`get_real`).  `max_cylinder` and `max_head` are computed with C
`unsigned int` (32-bit) subtraction; each output register is an 8-bit
byte.  Note `max_sector` is `sectors_per_track` itself ("sic" in the
source): sector numbering is 1-based, so it is not decremented.  Returns
`(ch, cl, dh, dl)` and the status 0. -/
def int13_get_parameters (geom : Int13Geometry) (num_drives : Nat) :
    (Nat × Nat × Nat × Nat) × Int :=
  let max_cylinder := (geom.cylinders + (2 ^ 32 - 1)) % 2 ^ 32
  let max_head := (geom.heads + (2 ^ 32 - 1)) % 2 ^ 32
  let max_sector := geom.sectors_per_track
  let ch := max_cylinder % 256
  let cl := ((((max_cylinder >>> 8) <<< 6) % 2 ^ 32) ||| max_sector) % 256
  let dh := max_head % 256
  let dl := num_drives % 256
  ((ch, cl, dh, dl), 0)

deriving instance DecidableEq for Except

/-! ## Claim theorems -/

/-- C2, counterexample: the claim puts the boundary at
`lba + count ≤ 2^32`, but at `lba = 0xffffffff`, `count = 1` (so
`lba + count = 2^32`) both `scsicmd_read_cmd` and `scsicmd_write_cmd`
select the 16-byte form. -/
theorem C2_opcode_boundary_counterexample :
    4294967295 + 1 ≤ 2 ^ 32 ∧
    scsicmd_read_cmd 4294967295 1 = .read16 4294967295 1 ∧
    scsicmd_write_cmd 4294967295 1 = .write16 4294967295 1 := by
  refine ⟨by norm_num, by decide, by decide⟩

/-- C2, amended: for every SCSI READ or WRITE command (with the field
values `lba` a 64-bit and `count` a 32-bit quantity, as in
`struct scsi_command`), the comparison is made on the sum
`lba + count` computed in 64-bit arithmetic, wrapping mod `2^64`: the
10-byte CDB form (32-bit LBA, 16-bit transfer length) is used when
`(lba + count) % 2^64 ≤ 2^32 - 1`, and the 16-byte form (64-bit LBA,
32-bit transfer length) is used otherwise. -/
theorem C2_opcode_selection (lba count : Nat)
    (h64 : lba < 2 ^ 64) (h32 : count < 2 ^ 32) :
    ((scsicmd_read_cmd lba count).isForm10 = true ↔
      (lba + count) % 2 ^ 64 ≤ 2 ^ 32 - 1) ∧
    ((scsicmd_write_cmd lba count).isForm10 = true ↔
      (lba + count) % 2 ^ 64 ≤ 2 ^ 32 - 1) := by
  have hm64 : lba % 2 ^ 64 = lba := Nat.mod_eq_of_lt h64
  have hm32 : count % 2 ^ 32 = count := Nat.mod_eq_of_lt h32
  constructor
  · unfold scsicmd_read_cmd SCSI_MAX_BLOCK_10
    rw [hm64, hm32]
    split
    · next h => simp [Cdb.isForm10]; omega
    · next h => simp [Cdb.isForm10]; omega
  · unfold scsicmd_write_cmd SCSI_MAX_BLOCK_10
    rw [hm64, hm32]
    split
    · next h => simp [Cdb.isForm10]; omega
    · next h => simp [Cdb.isForm10]; omega

/-- Witness for `C2_opcode_selection` at `lba = 10`, `count = 6`. -/
theorem C2_opcode_selection_witness :
    (scsicmd_read_cmd 10 6).isForm10 = true :=
  (C2_opcode_selection 10 6 (by norm_num) (by norm_num)).1.mpr (by norm_num)

/-- Reduction of `scsicmd_read_capacity_done` on the READ CAPACITY (10)
path with a successful completion and a successful re-issue. -/
theorem read_capacity_done10_eq (retries : Nat) (w10 : CapacityWire10)
    (w16 : CapacityWire16) :
    scsicmd_read_capacity_done false retries 0 w10 w16 0 =
      if (w10.lba % 2 ^ 32 + 1) % 2 ^ 32 = 0 then .reissued true retries
      else
        .delivered ⟨(w10.lba % 2 ^ 32 + 1) % 2 ^ 32, w10.blksize % 2 ^ 32,
          2 ^ 32 - 1⟩ := by
  simp [scsicmd_read_capacity_done]

/-- Reduction of `scsicmd_read_capacity_done` on the READ CAPACITY (16)
path with a successful completion. -/
theorem read_capacity_done16_eq (retries : Nat) (w10 : CapacityWire10)
    (w16 : CapacityWire16) :
    scsicmd_read_capacity_done true retries 0 w10 w16 0 =
      .delivered ⟨(w16.lba % 2 ^ 64 + 1) % 2 ^ 64, w16.blksize % 2 ^ 32,
        2 ^ 32 - 1⟩ := by
  simp [scsicmd_read_capacity_done]

/-- C1: capacity discovery starts with READ CAPACITY (10) (the `use16`
flag is zero-initialised); on a successful completion the fallback to
READ CAPACITY (16) — re-issuing the same command with `use16` set and the
retry counter untouched — happens iff the returned 32-bit LBA is
`0xffffffff`; otherwise the delivered capacity is `blocks = lba + 1`,
`blksize` as returned on the wire, and `max_count = ~0 = 2^32 - 1`. -/
theorem C1_read_capacity_fallback (retries : Nat)
    (w10 : CapacityWire10) (w16 : CapacityWire16)
    (h10 : w10.lba < 2 ^ 32) (hb10 : w10.blksize < 2 ^ 32)
    (h16 : w16.lba < 2 ^ 64) (hb16 : w16.blksize < 2 ^ 32) :
    scsicmd_read_capacity_cmd scsicmd_initial_use16 = .readcap10 ∧
    scsicmd_read_capacity_cmd true = .readcap16 ∧
    (scsicmd_read_capacity_done false retries 0 w10 w16 0 =
        .reissued true retries ↔ w10.lba = 2 ^ 32 - 1) ∧
    (w10.lba ≠ 2 ^ 32 - 1 →
      scsicmd_read_capacity_done false retries 0 w10 w16 0 =
        .delivered ⟨w10.lba + 1, w10.blksize, 2 ^ 32 - 1⟩) ∧
    (w16.lba ≠ 2 ^ 64 - 1 →
      scsicmd_read_capacity_done true retries 0 w10 w16 0 =
        .delivered ⟨w16.lba + 1, w16.blksize, 2 ^ 32 - 1⟩) := by
  have hmod : w10.lba % 2 ^ 32 = w10.lba := Nat.mod_eq_of_lt h10
  have hmod16 : w16.lba % 2 ^ 64 = w16.lba := Nat.mod_eq_of_lt h16
  have hbmod : w10.blksize % 2 ^ 32 = w10.blksize := Nat.mod_eq_of_lt hb10
  have hbmod16 : w16.blksize % 2 ^ 32 = w16.blksize := Nat.mod_eq_of_lt hb16
  refine ⟨rfl, rfl, ?_, ?_, ?_⟩
  · rw [read_capacity_done10_eq, hmod, hbmod]
    by_cases h : (w10.lba + 1) % 2 ^ 32 = 0
    · rw [if_pos h]
      exact ⟨fun _ => by omega, fun _ => rfl⟩
    · rw [if_neg h]
      exact ⟨fun heq => ReadCapOutcome.noConfusion heq,
        fun hlba => absurd (by omega : (w10.lba + 1) % 2 ^ 32 = 0) h⟩
  · intro hne
    have h : (w10.lba + 1) % 2 ^ 32 ≠ 0 := by omega
    rw [read_capacity_done10_eq, hmod, hbmod, if_neg h]
    have h2 : (w10.lba + 1) % 2 ^ 32 = w10.lba + 1 := by omega
    rw [h2]
  · intro hne
    have h2 : (w16.lba + 1) % 2 ^ 64 = w16.lba + 1 := by omega
    rw [read_capacity_done16_eq, hmod16, hbmod16, h2]

/-- Witness for `C1_read_capacity_fallback`: a READ CAPACITY (10)
response with `lba = 0xffffffff` triggers the use-16 re-issue with the
retry counter (here 3) preserved. -/
theorem C1_read_capacity_fallback_witness :
    scsicmd_read_capacity_done false 3 0 ⟨4294967295, 512⟩ ⟨0, 512⟩ 0 =
      .reissued true 3 :=
  (C1_read_capacity_fallback 3 ⟨4294967295, 512⟩ ⟨0, 512⟩ (by norm_num)
    (by norm_num) (by norm_num) (by norm_num)).2.2.1.mpr rfl

/-- C3: a completion with non-zero SCSI status byte is mapped to `-EIO`
and, while the per-command retry counter is below
`SCSICMD_MAX_RETRIES = 10`, the command is re-issued with the counter
bumped; starting from a fresh command, each of the first ten failing
completions re-issues (leaving the counter at the number of retries so
far), and the eleventh failing completion surfaces `-EIO` to the
completion handler instead of retrying. -/
theorem C3_retry_policy :
    (∀ retries status reissue_rc, status ≠ 0 →
      scsicmd_response retries status reissue_rc =
        scsicmd_done retries (-errEio) reissue_rc) ∧
    (∀ retries, retries < SCSICMD_MAX_RETRIES →
      scsicmd_done retries (-errEio) 0 = .reissued (retries + 1)) ∧
    (∀ retries, SCSICMD_MAX_RETRIES ≤ retries →
      scsicmd_done retries (-errEio) 0 = .completed (-errEio)) ∧
    (∀ n, n ≤ SCSICMD_MAX_RETRIES → scsicmd_fail_run n = .reissued n) ∧
    scsicmd_fail_run (SCSICMD_MAX_RETRIES + 1) = .completed (-errEio) := by
  refine ⟨?_, ?_, ?_, ?_, by decide⟩
  · intro retries status reissue_rc h
    unfold scsicmd_response
    rw [if_neg h]
  · intro retries h
    unfold scsicmd_done
    rw [if_pos ⟨by norm_num [errEio], h⟩, if_pos rfl]
  · intro retries h
    unfold scsicmd_done
    rw [if_neg]
    intro hcon
    omega
  · decide

/-- Witness for `C3_retry_policy`: the fifth failing completion of a
command (retry counter 4, status byte 2) maps the status to `-EIO` and
re-issues, leaving the retry counter at 5. -/
theorem C3_retry_policy_witness :
    scsicmd_response 4 2 0 = scsicmd_done 4 (-errEio) 0 ∧
    scsicmd_done 4 (-errEio) 0 = .reissued 5 ∧
    scsicmd_fail_run 10 = .reissued 10 :=
  ⟨C3_retry_policy.1 4 2 0 (by norm_num),
   C3_retry_policy.2.1 4 (by decide),
   C3_retry_policy.2.2.2.1 10 (by decide)⟩

/-- If every scheduled fragment's issuance succeeds, the `int13_rw` loop
issues exactly the scheduled fragments and returns success. -/
theorem int13_rw_loop_all_ok (max_count : Nat) (issue : Nat → Nat → Int)
    (hmc : 0 < max_count) :
    ∀ (fuel lba count : Nat), count ≤ fuel →
      (∀ p ∈ int13_frags max_count fuel lba count, issue p.1 p.2 = 0) →
      int13_rw_loop max_count issue fuel lba count =
        (int13_frags max_count fuel lba count, .ok) := by
  intro fuel
  induction fuel with
  | zero =>
    intro lba count hc _
    have : count = 0 := by omega
    subst this
    rfl
  | succ n ih =>
    intro lba count hc hall
    by_cases h0 : count = 0
    · subst h0
      rfl
    · have hhead : issue lba (min count max_count) = 0 := by
        refine hall (lba, min count max_count) ?_
        unfold int13_frags
        rw [if_neg h0]
        exact List.mem_cons_self _ _
      have htail : ∀ p ∈ int13_frags max_count n (lba + min count max_count)
          (count - min count max_count), issue p.1 p.2 = 0 := by
        intro p hp
        refine hall p ?_
        unfold int13_frags
        rw [if_neg h0]
        exact List.mem_cons_of_mem _ hp
      have hrec := ih (lba + min count max_count)
        (count - min count max_count) (by omega) htail
      unfold int13_rw_loop int13_frags
      rw [if_neg h0, if_neg h0]
      simp [hhead, hrec]

/-- Conversely, if the `int13_rw` loop returns success then every
scheduled fragment's issuance succeeded. -/
theorem int13_rw_loop_ok_all (max_count : Nat) (issue : Nat → Nat → Int)
    (hmc : 0 < max_count) :
    ∀ (fuel lba count : Nat), count ≤ fuel →
      (int13_rw_loop max_count issue fuel lba count).2 = .ok →
      ∀ p ∈ int13_frags max_count fuel lba count, issue p.1 p.2 = 0 := by
  intro fuel
  induction fuel with
  | zero =>
    intro lba count hc _ p hp
    have : count = 0 := by omega
    subst this
    simp [int13_frags] at hp
  | succ n ih =>
    intro lba count hc hok p hp
    by_cases h0 : count = 0
    · subst h0
      simp [int13_frags] at hp
    · unfold int13_frags at hp
      rw [if_neg h0] at hp
      by_cases hh : issue lba (min count max_count) = 0
      · rcases List.mem_cons.mp hp with hphead | hptail
        · subst hphead
          exact hh
        · refine ih (lba + min count max_count)
            (count - min count max_count) (by omega) ?_ p hptail
          unfold int13_rw_loop at hok
          rw [if_neg h0] at hok
          simpa [hh] using hok
      · unfold int13_rw_loop at hok
        rw [if_neg h0] at hok
        simp only [if_neg hh] at hok
        exact absurd hok (by simp)

/-- If the fragment schedule splits as `pre ++ (l, c) :: post`, every
fragment in `pre` succeeds and the fragment `(l, c)` fails, then the
`int13_rw` loop issues exactly `pre ++ [(l, c)]` and returns that
failure; the fragments in `post` are never issued. -/
theorem int13_rw_loop_first_err (max_count : Nat) (issue : Nat → Nat → Int)
    (hmc : 0 < max_count) :
    ∀ (fuel lba count : Nat) (pre : List (Nat × Nat)) (l c : Nat)
      (post : List (Nat × Nat)), count ≤ fuel →
      int13_frags max_count fuel lba count = pre ++ (l, c) :: post →
      (∀ p ∈ pre, issue p.1 p.2 = 0) →
      issue l c ≠ 0 →
      int13_rw_loop max_count issue fuel lba count =
        (pre ++ [(l, c)], .err (issue l c)) := by
  intro fuel
  induction fuel with
  | zero =>
    intro lba count pre l c post hc hsplit _ _
    have : count = 0 := by omega
    subst this
    simp [int13_frags] at hsplit
  | succ n ih =>
    intro lba count pre l c post hc hsplit hpre hfail
    by_cases h0 : count = 0
    · subst h0
      simp [int13_frags] at hsplit
    · unfold int13_frags at hsplit
      rw [if_neg h0] at hsplit
      cases pre with
      | nil =>
        rw [List.nil_append] at hsplit
        have hl : lba = l := congrArg Prod.fst (List.head_eq_of_cons_eq hsplit)
        have hm : min count max_count = c :=
          congrArg Prod.snd (List.head_eq_of_cons_eq hsplit)
        unfold int13_rw_loop
        rw [if_neg h0]
        simp only [hl, hm, if_neg hfail]
        rfl
      | cons q pre' =>
        rw [List.cons_append] at hsplit
        have hq : q = (lba, min count max_count) :=
          (List.head_eq_of_cons_eq hsplit).symm
        have htailsplit : int13_frags max_count n (lba + min count max_count)
            (count - min count max_count) = pre' ++ (l, c) :: post :=
          List.tail_eq_of_cons_eq hsplit
        have hq0 : issue lba (min count max_count) = 0 := by
          have := hpre q (List.mem_cons_self _ _)
          rw [hq] at this
          exact this
        have hpre' : ∀ p ∈ pre', issue p.1 p.2 = 0 := fun p hp =>
          hpre p (List.mem_cons_of_mem _ hp)
        have hrec := ih (lba + min count max_count)
          (count - min count max_count) pre' l c post (by omega) htailsplit
          hpre' hfail
        unfold int13_rw_loop
        rw [if_neg h0]
        simp [hq0, hrec, hq]

/-- C4: the `int13_rw` pump fragments a `count`-block request into
in-order issuances of `frag = min(count, max_count)` blocks, advancing
the LBA by `frag` each time (the schedule `int13_frags`); the call
succeeds iff every fragment completes successfully, issuing exactly the
schedule, and a first fragment failure is returned as the result of the
whole call with no later fragment issued. -/
theorem C4_fragmentation (max_count lba count : Nat)
    (issue : Nat → Nat → Int) (hmc : 0 < max_count) :
    ((int13_rw max_count issue lba count).2 = .ok ↔
      ∀ p ∈ int13_frags max_count count lba count, issue p.1 p.2 = 0) ∧
    ((∀ p ∈ int13_frags max_count count lba count, issue p.1 p.2 = 0) →
      int13_rw max_count issue lba count =
        (int13_frags max_count count lba count, .ok)) ∧
    (∀ (pre : List (Nat × Nat)) (l c : Nat) (post : List (Nat × Nat)),
      int13_frags max_count count lba count = pre ++ (l, c) :: post →
      (∀ p ∈ pre, issue p.1 p.2 = 0) → issue l c ≠ 0 →
      int13_rw max_count issue lba count =
        (pre ++ [(l, c)], .err (issue l c))) := by
  refine ⟨⟨fun h => int13_rw_loop_ok_all max_count issue hmc count lba count
      le_rfl h, fun h => ?_⟩, fun h => ?_, ?_⟩
  · unfold int13_rw
    rw [int13_rw_loop_all_ok max_count issue hmc count lba count le_rfl h]
  · exact int13_rw_loop_all_ok max_count issue hmc count lba count le_rfl h
  · intro pre l c post hsplit hpre hfail
    exact int13_rw_loop_first_err max_count issue hmc count lba count
      pre l c post le_rfl hsplit hpre hfail

/-- Witness for `C4_fragmentation`, the spec's boundary scenario:
`max_count = 8`, `count = 20` at base LBA 1000 gives exactly three
issuances of counts 8, 8, 4 at LBAs 1000, 1008, 1016 and succeeds. -/
theorem C4_fragmentation_witness :
    int13_rw 8 (fun _ _ => 0) 1000 20 =
      ([(1000, 8), (1008, 8), (1016, 4)], .ok) := by
  have h := (C4_fragmentation 8 1000 20 (fun _ _ => 0) (by norm_num)).2.1
    (fun p _ => rfl)
  rw [h]
  decide

/-- C5, counterexample: with one outstanding command (tag 5) on a live,
logged-in session, delivering an RSP with unknown tag 7 reports
`-ENOENT` *and* closes the session — its interfaces are shut down and the
outstanding command list is emptied — contradicting the claim that the
stale response is ignored with the session and other commands
unaffected. -/
theorem C5_unknown_tag_counterexample :
    (srpdev_deliver ⟨true, true, [5]⟩ (.rsp 7)).2 = -errEnoent ∧
    (srpdev_deliver ⟨true, true, [5]⟩ (.rsp 7)).1.alive = false ∧
    (srpdev_deliver ⟨true, true, [5]⟩ (.rsp 7)).1.commands = [] := by
  refine ⟨by decide, by decide, by decide⟩

/-- C5, amended: for every received SRP RSP IU whose tag matches no
command in the outstanding-command list, `srp_rsp` reports `-ENOENT`,
and `srpdev_deliver` — which treats any non-zero handler status as fatal
— then closes the whole session with that status, closing every
outstanding command (the `logged_in` field itself is not written). -/
theorem C5_unknown_tag_closes_session (s : SrpDevice) (tag : Nat)
    (h : srp_find_tag s.commands tag = none) :
    srpdev_deliver s (.rsp tag) =
      ({ alive := false, logged_in := s.logged_in, commands := [] },
        -errEnoent) := by
  simp [srpdev_deliver, srp_rsp_step, h, srpdev_close, errEnoent]

/-- Witness for `C5_unknown_tag_closes_session` on a session with one
outstanding command (tag 5) receiving an RSP with tag 7. -/
theorem C5_unknown_tag_closes_session_witness :
    srpdev_deliver ⟨true, true, [5]⟩ (.rsp 7) =
      (⟨false, true, []⟩, -errEnoent) :=
  C5_unknown_tag_closes_session ⟨true, true, [5]⟩ 7 rfl

/-- C6: evaluating `int13_rw_sectors` at the failing input — geometry
16/16/63, block size 512, registers AL=1, CH=0xff, CL=0x01, DH=0, so the
decoded cylinder 255 violates `cylinder < cylinders = 16` — shows that
the request is *not* rejected with `INT13_STATUS_INVALID`: block I/O is
issued for the translated LBA `(255*16+0)*63 + 1 - 1 = 257040` (the CHS
bounds appear only in debug `assert` macros). -/
theorem C6_chs_bounds_not_enforced :
    ((((0x01 &&& 0xc0) <<< 2) ||| 0xff) ≥
      (⟨16, 16, 63⟩ : Int13Geometry).cylinders) ∧
    int13_rw_sectors ⟨16, 16, 63⟩ 512 1 0xff 0x01 0 (fun _ _ => 0) =
      .issued 257040 1 0 ∧
    int13_rw_sectors ⟨16, 16, 63⟩ 512 1 0xff 0x01 0 (fun _ _ => 0) ≠
      .status (-INT13_STATUS_INVALID) := by
  refine ⟨by decide, by decide, by decide⟩

/-- C7: on a drive with block size exactly 512 and no previously supplied
geometry, the guesses start at heads 255 / sectors-per-track 63, every
partition entry with a non-zero type code overwrites both guesses (so the
last used entry wins), and cylinders is computed as
`min 1024 (min blocks ULONG_MAX / (heads * sectors_per_track))`; when the
block size is not 512 the geometry is returned unchanged with success,
whatever the MBR read would have produced. -/
theorem C7_guess_geometry :
    (∀ (blocks : Nat) (parts : List PartitionEntry),
      0 < (int13_guess_scan parts).1 * (int13_guess_scan parts).2 →
      int13_guess_geometry blocks 512 ⟨0, 0, 0⟩ (.ok parts) =
        .ok ⟨min 1024 (min blocks ULONG_MAX /
            ((int13_guess_scan parts).1 * (int13_guess_scan parts).2)),
          (int13_guess_scan parts).1, (int13_guess_scan parts).2⟩) ∧
    (∀ (p : PartitionEntry) (parts : List PartitionEntry), p.ptype ≠ 0 →
      int13_guess_scan (parts ++ [p]) =
        (p.chs_end_head + 1, p.chs_end_sector)) ∧
    (∀ (blocks blksize : Nat) (geom : Int13Geometry)
      (mbr : Except Int (List PartitionEntry)), blksize ≠ 512 →
      int13_guess_geometry blocks blksize geom mbr = .ok geom) := by
  refine ⟨?_, ?_, ?_⟩
  · intro blocks parts hpos
    unfold int13_guess_geometry INT13_BLKSIZE
    rw [if_neg (by omega : ¬(512 ≠ 512))]
    have hb : (if blocks ≤ ULONG_MAX then blocks else ULONG_MAX) =
        min blocks ULONG_MAX := by
      rw [Nat.min_def]
    have hmin : ∀ c : Nat, (if c > 1024 then 1024 else c) = min 1024 c := by
      intro c
      split <;> omega
    simp [hb, hmin]
  · intro p parts h
    simp [int13_guess_scan, List.foldl_append, h]
  · intro blocks blksize geom mbr h
    unfold int13_guess_geometry INT13_BLKSIZE
    rw [if_pos h]

/-- Witness for `C7_guess_geometry`, the spec's boundary scenario: one
used partition with CHS-end head 31 and sector 63 on a 2,097,152-sector
drive yields heads 32, sectors-per-track 63 and cylinders
`min 1024 (2097152 / 2016) = 1024`. -/
theorem C7_guess_geometry_witness :
    int13_guess_geometry 2097152 512 ⟨0, 0, 0⟩
        (.ok [⟨7, 31, 63⟩, ⟨0, 0, 0⟩, ⟨0, 0, 0⟩, ⟨0, 0, 0⟩]) =
      .ok ⟨1024, 32, 63⟩ := by
  have h := C7_guess_geometry.1 2097152
    [⟨7, 31, 63⟩, ⟨0, 0, 0⟩, ⟨0, 0, 0⟩, ⟨0, 0, 0⟩] (by decide)
  rw [h]
  decide

/-- A successful probe loop returns a tag that is absent from the
outstanding list. -/
theorem srp_new_tag_loop_free (cmds : List Nat) :
    ∀ (fuel idx t : Nat), srp_new_tag_loop cmds idx fuel = some t →
      srp_find_tag cmds t = none := by
  intro fuel
  induction fuel with
  | zero =>
    intro idx t h
    exact absurd h (by simp [srp_new_tag_loop])
  | succ n ih =>
    intro idx t h
    unfold srp_new_tag_loop at h
    by_cases hfree : srp_find_tag cmds ((idx + 1) % 65536) = none
    · rw [if_pos hfree] at h
      cases h
      exact hfree
    · rw [if_neg hfree] at h
      exact ih _ _ h

/-- If the probe loop exhausts its fuel, every one of the probed 16-bit
values was found in the outstanding list. -/
theorem srp_new_tag_loop_exhausted (cmds : List Nat) :
    ∀ (fuel idx : Nat), srp_new_tag_loop cmds idx fuel = none →
      ∀ k, k < fuel → srp_find_tag cmds ((idx + 1 + k) % 65536) ≠ none := by
  intro fuel
  induction fuel with
  | zero =>
    intro idx _ k hk
    omega
  | succ n ih =>
    intro idx h k hk
    unfold srp_new_tag_loop at h
    by_cases hfree : srp_find_tag cmds ((idx + 1) % 65536) = none
    · rw [if_pos hfree] at h
      cases h
    · rw [if_neg hfree] at h
      match k with
      | 0 => simpa using hfree
      | k + 1 =>
        have hrec := ih ((idx + 1) % 65536) h k (by omega)
        have harith : ((idx + 1) % 65536 + 1 + k) % 65536 =
            (idx + 1 + (k + 1)) % 65536 := by
          rw [add_assoc, Nat.mod_add_mod]
          congr 1
          omega
        rw [harith] at hrec
        exact hrec

/-- A full 65536-probe cycle that finds no free tag implies every 16-bit
value is an outstanding tag. -/
theorem srp_new_tag_exhausted_mem (cmds : List Nat) (idx : Nat)
    (h : srp_new_tag_loop cmds idx 65536 = none) :
    ∀ t, t < 65536 → t ∈ cmds := by
  intro t ht
  have hk : ∃ k, k < 65536 ∧ (idx + 1 + k) % 65536 = t := by
    refine ⟨(t + 65536 - (idx + 1) % 65536) % 65536,
      Nat.mod_lt _ (by norm_num), ?_⟩
    omega
  obtain ⟨k, hk1, hk2⟩ := hk
  have hne := srp_new_tag_loop_exhausted cmds 65536 idx h k hk1
  rw [hk2] at hne
  rcases hfind : srp_find_tag cmds t with _ | c
  · exact absurd hfind hne
  · have hfind2 : List.find? (fun x => x == t) cmds = some c := hfind
    have hmem : c ∈ cmds := List.mem_of_find?_eq_some hfind2
    have hbeq := List.find?_some hfind2
    have hct : c = t := by simpa using hbeq
    exact hct ▸ hmem

/-- C8, counterexample to session-scoping: `tag_idx` is a function-level
`static` shared by all sessions, so after session A's first allocation
(tag 1, counter left at 1), a fresh session B's first allocation returns
tag 2, whereas an allocator with a session-scoped counter (the spec
model) would return tag 1. -/
theorem C8_session_scoped_counterexample :
    srp_secondSession_firstTag_code = .ok 2 ∧
    srp_secondSession_firstTag_spec = .ok 1 ∧
    srp_secondSession_firstTag_code ≠ srp_secondSession_firstTag_spec := by
  refine ⟨by decide, by decide, by decide⟩

/-- C8, amended: tag allocation uses a process-global 16-bit counter
shared by all sessions (a function-level `static`), incremented before
each probe; every successful allocation returns a tag different from the
tag of every command in the queried session's outstanding-command list,
and `ADDRINUSE` is returned only if a full cycle of 65536 probes finds no
free tag — equivalently, whenever some 16-bit value is not an outstanding
tag, allocation succeeds. -/
theorem C8_tag_allocation :
    (∀ (cmds : List Nat) (idx t n : Nat),
      srp_new_tag cmds idx = (.ok t, n) → t ∉ cmds) ∧
    (∀ (cmds : List Nat) (idx : Nat),
      (∃ t, t < 65536 ∧ t ∉ cmds) →
      ∃ t n, srp_new_tag cmds idx = (.ok t, n)) := by
  constructor
  · intro cmds idx t n h
    unfold srp_new_tag at h
    rcases hloop : srp_new_tag_loop cmds idx 65536 with _ | t'
    · rw [hloop] at h
      simp at h
    · rw [hloop] at h
      rw [Prod.mk.injEq] at h
      obtain ⟨h1, h2⟩ := h
      injection h1 with h1
      subst h1
      have hfree := srp_new_tag_loop_free cmds 65536 idx t' hloop
      intro hmem
      have hnone := List.find?_eq_none.mp hfree t' hmem
      simp at hnone
  · intro cmds idx hex
    obtain ⟨t, ht, htm⟩ := hex
    rcases hloop : srp_new_tag_loop cmds idx 65536 with _ | t'
    · exact absurd (srp_new_tag_exhausted_mem cmds idx hloop t ht) htm
    · refine ⟨t', t', ?_⟩
      unfold srp_new_tag
      rw [hloop]

/-- Witness for `C8_tag_allocation`: on a session with no outstanding
commands and counter 0 the allocator returns tag 1 with the counter at 1;
tag 1 is not outstanding, and allocation from counter 7 succeeds. -/
theorem C8_tag_allocation_witness :
    (1 ∉ ([] : List Nat)) ∧ ∃ t n, srp_new_tag [] 7 = (.ok t, n) :=
  ⟨C8_tag_allocation.1 [] 0 1 1 rfl,
   C8_tag_allocation.2 [] 7 ⟨1, by norm_num, by simp⟩⟩

/-- C9, counterexample: the dispatcher stores the handler's status into
`last_status` on *every* call, so after a failed operation (status
`-INT13_STATUS_READ_ERROR`) a subsequent successful operation overwrites
the recorded error with 0, and function 0x01 (get last status) then
returns 0 rather than the previous error. -/
theorem C9_last_status_counterexample :
    (int13_dispatch 0 (.op (-INT13_STATUS_READ_ERROR))).1 = -4 ∧
    (int13_dispatch (-4) (.op 0)).1 = 0 ∧
    (int13_dispatch 0 .getLastStatus).1 = 0 ∧
    (int13_dispatch 0 .getLastStatus).2.ah = 0 ∧ (0 : Int) ≠ -4 := by
  refine ⟨by decide, by decide, by decide, by decide, by decide⟩

/-- C9, amended: the drive's last-status field records the status of the
most recent dispatched call — it is updated by every call, successful
ones included, so a success overwrites a previously recorded error with
0 — and function 0x01 (get last status) returns the currently stored
value (with CF clear when that value is non-negative). -/
theorem C9_last_status_update (last_status s : Int) :
    ((int13_dispatch last_status (.op s)).1 = s) ∧
    ((int13_dispatch last_status .getLastStatus).1 = last_status) ∧
    (0 ≤ last_status →
      (int13_dispatch last_status .getLastStatus).2.cf = false) := by
  refine ⟨?_, ?_, ?_⟩
  · by_cases h : s < 0 <;> simp [int13_dispatch, h]
  · by_cases h : last_status < 0 <;> simp [int13_dispatch, h]
  · intro h
    simp only [int13_dispatch]
    rw [if_neg (by omega : ¬last_status < 0)]

/-- Witness for `C9_last_status_update`: a successful call stores 0 over
a stored error, and function 0x01 then returns the stored 0 with CF
clear. -/
theorem C9_last_status_update_witness :
    ((int13_dispatch (-4) (.op 0)).1 = 0) ∧
    ((int13_dispatch 0 .getLastStatus).1 = 0) ∧
    (int13_dispatch 0 .getLastStatus).2.cf = false :=
  ⟨(C9_last_status_update (-4) 0).1, (C9_last_status_update 0 0).2.1,
   (C9_last_status_update 0 0).2.2 le_rfl⟩

/-- C10: function 0x08 on a matched drive (with a valid inferred
geometry: `1 ≤ cylinders ≤ 1024`, `1 ≤ heads ≤ 256`,
`sectors_per_track ≤ 63`, drive-count byte < 256) packs the outputs as
`CH = (cylinders - 1) & 0xff`,
`CL = (((cylinders - 1) >> 8) << 6) | sectors_per_track`,
`DH = heads - 1`, `DL = ` the BIOS data area drive-count byte; the
maximum sector number is `sectors_per_track` itself (1-based, not
decremented) while cylinder and head maxima are decremented, and the
returned status is 0. -/
theorem C10_get_parameters (geom : Int13Geometry) (num_drives : Nat)
    (h1 : 0 < geom.cylinders) (h2 : geom.cylinders ≤ 1024)
    (h3 : 0 < geom.heads) (h4 : geom.heads ≤ 256)
    (h5 : geom.sectors_per_track ≤ 63) (h6 : num_drives < 256) :
    int13_get_parameters geom num_drives =
      (((geom.cylinders - 1) % 256,
        ((geom.cylinders - 1) >>> 8) <<< 6 ||| geom.sectors_per_track,
        geom.heads - 1, num_drives), 0) := by
  rcases geom with ⟨c, hd, spt⟩
  simp only at h1 h2 h3 h4 h5
  unfold int13_get_parameters
  have e1 : (c + (2 ^ 32 - 1)) % 2 ^ 32 = c - 1 := by omega
  have e2 : (hd + (2 ^ 32 - 1)) % 2 ^ 32 = hd - 1 := by omega
  simp only [e1, e2]
  have hA : ((c - 1) >>> 8) <<< 6 ≤ 192 := by
    rw [Nat.shiftRight_eq_div_pow, Nat.shiftLeft_eq]
    have hq : (c - 1) / 2 ^ 8 ≤ 3 := by omega
    have : (c - 1) / 2 ^ 8 * 2 ^ 6 ≤ 3 * 2 ^ 6 :=
      Nat.mul_le_mul_right _ hq
    omega
  have hA32 : ((c - 1) >>> 8) <<< 6 % 2 ^ 32 = ((c - 1) >>> 8) <<< 6 :=
    Nat.mod_eq_of_lt (by omega)
  rw [hA32]
  have hlor : (((c - 1) >>> 8) <<< 6 ||| spt) < 256 := by
    have hx : ((c - 1) >>> 8) <<< 6 < 2 ^ 8 := by omega
    have hy : spt < 2 ^ 8 := by omega
    exact Nat.bitwise_lt hx hy
  rw [Nat.mod_eq_of_lt hlor, Nat.mod_eq_of_lt (by omega : hd - 1 < 256),
    Nat.mod_eq_of_lt h6]

/-- Witness for `C10_get_parameters` at geometry 1024/255/63 with drive
count 2: `CH = 0xff`, `CL = 0xff` (cylinder high bits 3, sector 63),
`DH = 0xfe`, `DL = 2`, status 0. -/
theorem C10_get_parameters_witness :
    int13_get_parameters ⟨1024, 255, 63⟩ 2 = ((255, 255, 254, 2), 0) := by
  rw [C10_get_parameters ⟨1024, 255, 63⟩ 2 (by norm_num) (by norm_num)
    (by norm_num) (by norm_num) (by norm_num) (by norm_num)]
  decide
